import Mathlib

/-
Verification of the ordamy-middleware ledger core.

The definitions below are a shallow embedding of the business-logic routes
of the repository:

  * payment lifecycle: POST / PUT / DELETE /api/payments
    (src/unnamed/part_005, the revision that also carries edit and delete);
  * order ledger and status machines: POST /api/orders,
    PUT /api/orders/:id/cancel, PUT /api/orders/:id/operational-status
    (src/unnamed/part_004, later revision, lines 329-727).

Monetary values are modelled as rationals (the database columns are exact
decimals), Prisma row sets as lists, `findFirst` as `List.find?`,
`update where id` as a conditional `List.map`, `delete` / `deleteMany` as
`List.filter`, and a `$transaction` as an all-or-nothing `Except` value.
Generated row ids are drawn from a `nextId` counter.
-/

namespace Ordamy

inductive OrderStatus
  | ACTIVE
  | COMPLETED
  | CANCELLED
deriving DecidableEq, Repr

inductive OpStatus
  | PENDING
  | APPROVED
  | IN_PRODUCTION
  | PRODUCED
  | DELIVERED
deriving DecidableEq, Repr

/-- Index of an operational status in OPERATIONAL_FLOW
(src/unnamed/part_004 line 661). -/
def OpStatus.idx : OpStatus → Nat
  | .PENDING => 0
  | .APPROVED => 1
  | .IN_PRODUCTION => 2
  | .PRODUCED => 3
  | .DELIVERED => 4

def OpStatus.name : OpStatus → String
  | .PENDING => "PENDING"
  | .APPROVED => "APPROVED"
  | .IN_PRODUCTION => "IN_PRODUCTION"
  | .PRODUCED => "PRODUCED"
  | .DELIVERED => "DELIVERED"

structure Order where
  id : Nat
  tenantId : Nat
  number : Nat
  customerId : Nat
  subtotal : ℚ
  taxRate : ℚ
  taxAmount : ℚ
  discount : ℚ
  total : ℚ
  balance : ℚ
  status : OrderStatus
  operationalStatus : OpStatus
  cancellationReason : Option String
deriving DecidableEq, Repr

structure Payment where
  id : Nat
  tenantId : Nat
  orderId : Nat
  paymentMethodId : Nat
  amount : ℚ
  registeredBy : Nat
  notes : Option String
deriving DecidableEq, Repr

structure Account where
  id : Nat
  tenantId : Nat
  paymentMethodId : Nat
  balance : ℚ
deriving DecidableEq, Repr

inductive TxnType
  | CREDIT
  | DEBIT
deriving DecidableEq, Repr

structure Transaction where
  tenantId : Nat
  accountId : Nat
  type : TxnType
  amount : ℚ
  description : String
  referenceId : Nat
  referenceType : String
  registeredBy : Nat
deriving DecidableEq, Repr

structure StatusHistory where
  tenantId : Nat
  orderId : Nat
  fromStatus : Option OrderStatus
  toStatus : OrderStatus
  reason : Option String
  changedBy : Nat
deriving DecidableEq, Repr

structure OrderItem where
  tenantId : Nat
  orderId : Nat
  productId : Option Nat
  description : String
  quantity : ℚ
  unitPrice : ℚ
  lineTotal : ℚ
deriving DecidableEq, Repr

/-- The tenant-scoped persistent state touched by the ledger core. -/
structure DB where
  orders : List Order
  orderItems : List OrderItem
  payments : List Payment
  accounts : List Account
  transactions : List Transaction
  statusHistory : List StatusHistory
  nextId : Nat
deriving DecidableEq, Repr

/-- Error taxonomy of the routes: 400, 403, 404 responses and errors thrown
inside a transaction (500 after the catch). -/
inductive ApiError
  | badRequest (msg : String)
  | forbidden (msg : String)
  | notFound (msg : String)
  | serverError (msg : String)
deriving DecidableEq, Repr

def ordPred (tenantId orderId : Nat) : Order → Bool :=
  fun o => decide (o.id = orderId ∧ o.tenantId = tenantId)

def ordIdPred (orderId : Nat) : Order → Bool :=
  fun o => decide (o.id = orderId)

def accPred (tenantId paymentMethodId : Nat) : Account → Bool :=
  fun a => decide (a.tenantId = tenantId ∧ a.paymentMethodId = paymentMethodId)

def payPred (tenantId paymentId : Nat) : Payment → Bool :=
  fun p => decide (p.id = paymentId ∧ p.tenantId = tenantId)

/-- order.findFirst where id and tenantId. -/
def findOrder (db : DB) (tenantId orderId : Nat) : Option Order :=
  db.orders.find? (ordPred tenantId orderId)

/-- order.findFirst where id only (cancel / operational-status / relation
fetches do not filter by tenant). -/
def findOrderById (db : DB) (orderId : Nat) : Option Order :=
  db.orders.find? (ordIdPred orderId)

/-- account.findFirst where tenantId and paymentMethodId. -/
def findAccount (db : DB) (tenantId paymentMethodId : Nat) : Option Account :=
  db.accounts.find? (accPred tenantId paymentMethodId)

/-- payment.findFirst where id and tenantId. -/
def findPayment (db : DB) (tenantId paymentId : Nat) : Option Payment :=
  db.payments.find? (payPred tenantId paymentId)

/-- POST /api/payments (src/unnamed/part_005 lines 10-111).  Registers a
payment on an active order, updates the order balance, marks the order
COMPLETED when the new balance is non-positive and the order is DELIVERED,
and mirrors the movement on the account of the payment method when that
account exists.  A `none` (absent) or zero `amount?` is falsy in the
JavaScript required-field check and is rejected; no sign check exists. -/
def applyPayment (db : DB) (tenantId userId : Nat)
    (orderId? paymentMethodId? : Option Nat) (amount? : Option ℚ)
    (notes : Option String) : Except ApiError (DB × Payment) :=
  match orderId?, paymentMethodId?, amount? with
  | some orderId, some paymentMethodId, some amount =>
    if amount = 0 then
      .error (.badRequest "orderId, paymentMethodId and amount are required")
    else
      match findOrder db tenantId orderId with
      | none => .error (.notFound "Order not found")
      | some order =>
        if order.status ≠ OrderStatus.ACTIVE then
          .error (.serverError "Can only add payments to active orders")
        else if amount > order.balance then
          .error (.serverError "Payment amount exceeds order balance")
        else
          let payment : Payment :=
            { id := db.nextId, tenantId := tenantId, orderId := orderId,
              paymentMethodId := paymentMethodId, amount := amount,
              registeredBy := userId, notes := notes }
          let newBalance := order.balance - amount
          let completes :=
            newBalance ≤ 0 ∧ order.operationalStatus = OpStatus.DELIVERED
          let hist : List StatusHistory :=
            if completes then
              [{ tenantId := tenantId, orderId := orderId,
                 fromStatus := some OrderStatus.ACTIVE,
                 toStatus := OrderStatus.COMPLETED,
                 reason := some "Fully paid and delivered",
                 changedBy := userId }]
            else []
          let orders' := db.orders.map fun o =>
            if o.id = orderId then
              { o with balance := newBalance,
                       status := if completes then OrderStatus.COMPLETED
                                 else o.status }
            else o
          match findAccount db tenantId paymentMethodId with
          | some account =>
            let txn : Transaction :=
              { tenantId := tenantId, accountId := account.id,
                type := TxnType.CREDIT, amount := amount,
                description := "Pago orden #" ++ toString order.number,
                referenceId := payment.id, referenceType := "PAYMENT",
                registeredBy := userId }
            let accounts' := db.accounts.map fun a =>
              if a.id = account.id then
                { a with balance := a.balance + amount }
              else a
            .ok ({ db with
                    orders := orders',
                    payments := db.payments ++ [payment],
                    accounts := accounts',
                    transactions := db.transactions ++ [txn],
                    statusHistory := db.statusHistory ++ hist,
                    nextId := db.nextId + 1 }, payment)
          | none =>
            .ok ({ db with
                    orders := orders',
                    payments := db.payments ++ [payment],
                    statusHistory := db.statusHistory ++ hist,
                    nextId := db.nextId + 1 }, payment)
  | _, _, _ =>
    .error (.badRequest "orderId, paymentMethodId and amount are required")

/-- PUT /api/payments/:id (src/unnamed/part_005 lines 155-229).  Edits a
payment's amount, method or notes.  `amount? = none` or `some 0` is falsy
(`amount || oldAmount`) and leaves the amount unchanged; `notes?` is a
double option, the outer level meaning the field was present in the body.
When the amount changes, the order balance moves by `-diff` and the account
of the payment's original method by `+diff`; no transaction row is touched. -/
def editPayment (db : DB) (tenantId : Nat) (paymentId : Nat)
    (paymentMethodId? : Option Nat) (amount? : Option ℚ)
    (notes? : Option (Option String)) : Except ApiError (DB × Payment) :=
  match findPayment db tenantId paymentId with
  | none => .error (.notFound "Payment not found")
  | some payment =>
    match findOrderById db payment.orderId with
    | none => .error (.serverError "Failed to edit payment")
    | some order =>
      if order.status = OrderStatus.CANCELLED then
        .error (.badRequest "Cannot edit payment on cancelled order")
      else
        let oldAmount := payment.amount
        let newAmount :=
          match amount? with
          | some a => if a ≠ 0 then a else oldAmount
          | none => oldAmount
        let diff := newAmount - oldAmount
        let availableBalance := order.balance + oldAmount
        if newAmount > availableBalance then
          .error (.badRequest "Amount exceeds available order balance")
        else
          let updated : Payment :=
            { payment with
                paymentMethodId :=
                  match paymentMethodId? with
                  | some pm => pm
                  | none => payment.paymentMethodId,
                amount :=
                  match amount? with
                  | some a => if a ≠ 0 then newAmount else payment.amount
                  | none => payment.amount,
                notes :=
                  match notes? with
                  | some n => n
                  | none => payment.notes }
          let payments' := db.payments.map fun q =>
            if q.id = paymentId then updated else q
          if diff = 0 then
            .ok ({ db with payments := payments' }, updated)
          else
            let newBalance := order.balance - diff
            let statusUpd : Option OrderStatus :=
              if newBalance ≤ 0 ∧ order.status = OrderStatus.ACTIVE ∧
                  order.operationalStatus = OpStatus.DELIVERED then
                some OrderStatus.COMPLETED
              else if newBalance > 0 ∧ order.status = OrderStatus.COMPLETED then
                some OrderStatus.ACTIVE
              else none
            let orders' := db.orders.map fun o =>
              if o.id = payment.orderId then
                { o with balance := newBalance,
                         status := statusUpd.getD o.status }
              else o
            let accounts' :=
              match findAccount db tenantId payment.paymentMethodId with
              | some account =>
                db.accounts.map fun a =>
                  if a.id = account.id then
                    { a with balance := a.balance + diff }
                  else a
              | none => db.accounts
            .ok ({ db with payments := payments', orders := orders',
                           accounts := accounts' }, updated)

/-- DELETE /api/payments/:id (src/unnamed/part_005 lines 235-300).  Deletes
a payment, restores the order balance, reverts a COMPLETED order to ACTIVE
(appending a history entry), decrements the account of the payment's method
when that account exists, and removes the payment's transaction rows. -/
def deletePayment (db : DB) (tenantId userId : Nat) (paymentId : Nat) :
    Except ApiError DB :=
  match findPayment db tenantId paymentId with
  | none => .error (.notFound "Payment not found")
  | some payment =>
    match findOrderById db payment.orderId with
    | none => .error (.serverError "Failed to delete payment")
    | some order =>
      if order.status = OrderStatus.CANCELLED then
        .error (.badRequest "Cannot delete payment on cancelled order")
      else
        let payments' := db.payments.filter fun q => decide (q.id ≠ paymentId)
        let amt := payment.amount
        let newBalance := order.balance + amt
        let hist : List StatusHistory :=
          if order.status = OrderStatus.COMPLETED then
            [{ tenantId := tenantId, orderId := payment.orderId,
               fromStatus := some OrderStatus.COMPLETED,
               toStatus := OrderStatus.ACTIVE,
               reason := some ("Payment deleted (" ++ toString amt ++ ")"),
               changedBy := userId }]
          else []
        let orders' := db.orders.map fun o =>
          if o.id = payment.orderId then
            { o with balance := newBalance,
                     status := if order.status = OrderStatus.COMPLETED then
                                 OrderStatus.ACTIVE
                               else o.status }
          else o
        let accounts' :=
          match findAccount db tenantId payment.paymentMethodId with
          | some account =>
            db.accounts.map fun a =>
              if a.id = account.id then
                { a with balance := a.balance - amt }
              else a
          | none => db.accounts
        let transactions' := db.transactions.filter fun t =>
          decide (¬(t.referenceId = paymentId ∧ t.referenceType = "PAYMENT"))
        .ok { db with payments := payments', orders := orders',
                      accounts := accounts', transactions := transactions',
                      statusHistory := db.statusHistory ++ hist }

structure OrderItemInput where
  productId : Option Nat
  description : String
  quantity : ℚ
  unitPrice : ℚ
deriving DecidableEq, Repr

/-- Highest order number already used by the tenant (`order.findFirst`
ordered by number descending, `maxOrder?.number || 0`). -/
def maxOrderNumber (db : DB) (tenantId : Nat) : Nat :=
  ((db.orders.filter fun o => decide (o.tenantId = tenantId)).map
    (fun o => o.number)).foldl max 0

/-- POST /api/orders (src/unnamed/part_004 lines 504-594, later revision).
Computes the totals, allocates the next per-tenant number, creates the
order with its items and the initial ACTIVE history entry.  `canDiscount`
is the externally supplied permission decision for applying a discount.
The initial `status` / `operationalStatus` are the schema defaults (ACTIVE
and PENDING per spec sections 3 and 4.7; the Prisma schema is not part of
the sources). -/
def createOrder (db : DB) (tenantId userId : Nat) (customerId? : Option Nat)
    (taxRate discount : ℚ) (items : List OrderItemInput) (canDiscount : Bool)
    : Except ApiError (DB × Order) :=
  match customerId? with
  | none => .error (.badRequest "customerId and at least one item are required")
  | some customerId =>
    if items.isEmpty then
      .error (.badRequest "customerId and at least one item are required")
    else if discount > 0 ∧ ¬canDiscount then
      .error (.forbidden "You don't have permission to apply discounts")
    else
      let subtotal := (items.map fun it => it.quantity * it.unitPrice).sum
      let taxAmount := subtotal * taxRate
      let total := subtotal + taxAmount - discount
      let nextNumber := maxOrderNumber db tenantId + 1
      let order : Order :=
        { id := db.nextId, tenantId := tenantId, number := nextNumber,
          customerId := customerId, subtotal := subtotal, taxRate := taxRate,
          taxAmount := taxAmount, discount := discount, total := total,
          balance := total, status := OrderStatus.ACTIVE,
          operationalStatus := OpStatus.PENDING, cancellationReason := none }
      let newItems : List OrderItem := items.map fun it =>
        { tenantId := tenantId, orderId := db.nextId,
          productId := it.productId, description := it.description,
          quantity := it.quantity, unitPrice := it.unitPrice,
          lineTotal := it.quantity * it.unitPrice }
      let hist : StatusHistory :=
        { tenantId := tenantId, orderId := db.nextId, fromStatus := none,
          toStatus := OrderStatus.ACTIVE, reason := none, changedBy := userId }
      .ok ({ db with orders := db.orders ++ [order],
                     orderItems := db.orderItems ++ newItems,
                     statusHistory := db.statusHistory ++ [hist],
                     nextId := db.nextId + 1 }, order)

/-- PUT /api/orders/:id/cancel (src/unnamed/part_004 lines 600-656, later
revision).  Only ACTIVE orders with zero registered payments can be
cancelled; cancellation zeroes the balance, stores the reason, and appends
an ACTIVE to CANCELLED history entry. -/
def cancelOrder (db : DB) (tenantId userId : Nat) (orderId : Nat)
    (reason : Option String) : Except ApiError DB :=
  match findOrderById db orderId with
  | none => .error (.notFound "Order not found")
  | some order =>
    if order.status ≠ OrderStatus.ACTIVE then
      .error (.badRequest "Only active orders can be cancelled")
    else
      let paymentCount :=
        (db.payments.filter fun p => decide (p.orderId = orderId)).length
      if paymentCount > 0 then
        .error (.badRequest "No se puede cancelar: la orden tiene pagos registrados")
      else
        let orders' := db.orders.map fun o =>
          if o.id = orderId then
            { o with status := OrderStatus.CANCELLED, balance := 0,
                     cancellationReason := reason }
          else o
        let hist : StatusHistory :=
          { tenantId := tenantId, orderId := orderId,
            fromStatus := some OrderStatus.ACTIVE,
            toStatus := OrderStatus.CANCELLED, reason := reason,
            changedBy := userId }
        .ok { db with orders := orders',
                      statusHistory := db.statusHistory ++ [hist] }

/-- PUT /api/orders/:id/operational-status (src/unnamed/part_004 lines
663-725).  Moves an ACTIVE order one step forward or backward along
OPERATIONAL_FLOW; delivering a fully paid order also completes it.  A
history entry recording the operational move (and the completion, when it
happens) is always appended. -/
def setOperationalStatus (db : DB) (tenantId userId : Nat) (orderId : Nat)
    (target : OpStatus) : Except ApiError DB :=
  match findOrderById db orderId with
  | none => .error (.notFound "Order not found")
  | some order =>
    if order.status ≠ OrderStatus.ACTIVE then
      .error (.badRequest "Cannot change operational status of non-active orders")
    else
      let currentIdx := order.operationalStatus.idx
      let nextIdx := target.idx
      if ((nextIdx : ℤ) - (currentIdx : ℤ)).natAbs ≠ 1 then
        .error (.badRequest "Only adjacent transitions allowed")
      else
        let completes := target = OpStatus.DELIVERED ∧ order.balance ≤ 0
        let orders' := db.orders.map fun o =>
          if o.id = orderId then
            { o with operationalStatus := target,
                     status := if completes then OrderStatus.COMPLETED
                               else o.status }
          else o
        let hist : StatusHistory :=
          { tenantId := tenantId, orderId := orderId,
            fromStatus := some order.status,
            toStatus := if completes then OrderStatus.COMPLETED
                        else order.status,
            reason := some ("Operational: " ++ order.operationalStatus.name
              ++ " → " ++ target.name),
            changedBy := userId }
        .ok { db with orders := orders',
                      statusHistory := db.statusHistory ++ [hist] }

/-! Account-ledger bookkeeping: signed transaction sums and the invariant
relating them to the stored account balances. -/

def creditSum (ts : List Transaction) (accountId : Nat) : ℚ :=
  ((ts.filter fun x =>
      decide (x.accountId = accountId ∧ x.type = TxnType.CREDIT)).map
    (fun x => x.amount)).sum

def debitSum (ts : List Transaction) (accountId : Nat) : ℚ :=
  ((ts.filter fun x =>
      decide (x.accountId = accountId ∧ x.type = TxnType.DEBIT)).map
    (fun x => x.amount)).sum

/-- Transaction rows journaling a given payment (the rows that
`transaction.deleteMany where referenceId / referenceType` removes). -/
def txnsFor (ts : List Transaction) (paymentId : Nat) : List Transaction :=
  ts.filter fun x =>
    decide (x.referenceId = paymentId ∧ x.referenceType = "PAYMENT")

/-- Every stored account balance equals the signed sum of the transactions
referencing it. -/
def accountBalanced (db : DB) : Prop :=
  ∀ a ∈ db.accounts,
    a.balance = creditSum db.transactions a.id - debitSum db.transactions a.id

/-- The journal rows of a payment: exactly one CREDIT of the payment's
amount on the account of its method when that account exists, none
otherwise. -/
def payTxnSpec (db : DB) (p : Payment) : Prop :=
  (txnsFor db.transactions p.id).map (fun x => (x.accountId, x.type, x.amount)) =
    match findAccount db p.tenantId p.paymentMethodId with
    | some a => [(a.id, TxnType.CREDIT, p.amount)]
    | none => []

/-- Well-formedness of the ledger state: balances match the journal, row
ids already issued are below the id counter, and each payment is journaled
by exactly its own CREDIT row (or none when its method has no account). -/
def LedgerInv (db : DB) : Prop :=
  accountBalanced db ∧
  (∀ p ∈ db.payments, p.id < db.nextId) ∧
  (∀ x ∈ db.transactions, x.referenceId < db.nextId) ∧
  (∀ p ∈ db.payments, payTxnSpec db p)

/-- A request against the payment-lifecycle endpoints that mutate the
account ledger: payment creation or payment deletion. -/
inductive LedgerOp
  | pay (tenantId userId : Nat) (orderId? paymentMethodId? : Option Nat)
      (amount? : Option ℚ) (notes : Option String)
  | del (tenantId userId : Nat) (paymentId : Nat)

/-- Run one request; a failed request leaves the state unchanged (the
route transaction rolls back). -/
def runOp (db : DB) : LedgerOp → DB
  | .pay t u o pm a n =>
    match applyPayment db t u o pm a n with
    | .ok (db', _) => db'
    | .error _ => db
  | .del t u pid =>
    match deletePayment db t u pid with
    | .ok db' => db'
    | .error _ => db

def runOps (db : DB) (ops : List LedgerOp) : DB := ops.foldl runOp db

/-! Generic list lemmas used throughout the development. -/

theorem find?_map_pred {α : Type} (l : List α) (f : α → α) (p : α → Bool)
    (h : ∀ x, p (f x) = p x) : (l.map f).find? p = (l.find? p).map f := by
  rw [List.find?_map]
  have hpf : p ∘ f = p := funext h
  rw [hpf]

theorem find?_key_unique {α : Type} (l : List α) (key : α → Nat)
    (hnd : (l.map key).Nodup) (x : α) (hx : x ∈ l) (k : Nat)
    (hk : key x = k) : l.find? (fun y => decide (key y = k)) = some x := by
  induction l with
  | nil => cases hx
  | cons a tl ih =>
    simp only [List.map_cons, List.nodup_cons] at hnd
    rcases List.mem_cons.mp hx with rfl | hmem
    · simp [List.find?_cons, hk]
    · have hne : key a ≠ k := by
        intro hak
        exact hnd.1 (hak ▸ hk ▸ List.mem_map_of_mem key hmem)
      rw [List.find?_cons]
      simp only [hne, decide_eq_true_eq, if_neg]
      exact ih hnd.2 hmem

theorem creditSum_cons (x : Transaction) (ts : List Transaction) (aid : Nat) :
    creditSum (x :: ts) aid =
      (if x.accountId = aid ∧ x.type = TxnType.CREDIT then x.amount else 0) +
        creditSum ts aid := by
  unfold creditSum
  by_cases h : x.accountId = aid ∧ x.type = TxnType.CREDIT
  · simp [List.filter_cons, h]
  · simp [List.filter_cons, h]

theorem debitSum_cons (x : Transaction) (ts : List Transaction) (aid : Nat) :
    debitSum (x :: ts) aid =
      (if x.accountId = aid ∧ x.type = TxnType.DEBIT then x.amount else 0) +
        debitSum ts aid := by
  unfold debitSum
  by_cases h : x.accountId = aid ∧ x.type = TxnType.DEBIT
  · simp [List.filter_cons, h]
  · simp [List.filter_cons, h]

theorem creditSum_append (ts₁ ts₂ : List Transaction) (aid : Nat) :
    creditSum (ts₁ ++ ts₂) aid = creditSum ts₁ aid + creditSum ts₂ aid := by
  unfold creditSum
  rw [List.filter_append, List.map_append, List.sum_append]

theorem debitSum_append (ts₁ ts₂ : List Transaction) (aid : Nat) :
    debitSum (ts₁ ++ ts₂) aid = debitSum ts₁ aid + debitSum ts₂ aid := by
  unfold debitSum
  rw [List.filter_append, List.map_append, List.sum_append]

theorem creditSum_filter_split (ts : List Transaction) (m : Transaction → Bool)
    (aid : Nat) :
    creditSum ts aid =
      creditSum (ts.filter m) aid +
        creditSum (ts.filter fun x => !(m x)) aid := by
  induction ts with
  | nil => simp [creditSum]
  | cons x tl ih =>
    rw [List.filter_cons, List.filter_cons]
    by_cases h : m x
    · rw [if_pos h, if_neg (show ¬(!(m x)) = true by simp [h]),
        creditSum_cons, creditSum_cons, ih]
      ring
    · rw [if_neg h, if_pos (show (!(m x)) = true by simp [h]),
        creditSum_cons, creditSum_cons, ih]
      ring

theorem debitSum_filter_split (ts : List Transaction) (m : Transaction → Bool)
    (aid : Nat) :
    debitSum ts aid =
      debitSum (ts.filter m) aid +
        debitSum (ts.filter fun x => !(m x)) aid := by
  induction ts with
  | nil => simp [debitSum]
  | cons x tl ih =>
    rw [List.filter_cons, List.filter_cons]
    by_cases h : m x
    · rw [if_pos h, if_neg (show ¬(!(m x)) = true by simp [h]),
        debitSum_cons, debitSum_cons, ih]
      ring
    · rw [if_neg h, if_pos (show (!(m x)) = true by simp [h]),
        debitSum_cons, debitSum_cons, ih]
      ring

theorem sums_of_proj_singleton (ts : List Transaction) (aid0 : Nat) (amt0 : ℚ)
    (h : ts.map (fun x => (x.accountId, x.type, x.amount)) =
      [(aid0, TxnType.CREDIT, amt0)]) (aid : Nat) :
    creditSum ts aid = (if aid0 = aid then amt0 else 0) ∧
      debitSum ts aid = 0 := by
  match ts with
  | [] => simp at h
  | x :: tl =>
    simp only [List.map_cons, List.cons.injEq, Prod.mk.injEq,
      List.map_eq_nil_iff] at h
    obtain ⟨⟨haid, htype, hamt⟩, htl⟩ := h
    subst htl
    constructor
    · rw [creditSum_cons]
      by_cases hd : aid0 = aid
      · simp [creditSum, haid, htype, hamt, hd]
      · have : ¬(x.accountId = aid ∧ x.type = TxnType.CREDIT) := by
          intro hc
          exact hd (haid ▸ hc.1)
        simp [creditSum, this, hd]
    · rw [debitSum_cons]
      have : ¬(x.accountId = aid ∧ x.type = TxnType.DEBIT) := by
        intro hc
        rw [htype] at hc
        cases hc.2
      simp [debitSum, this]

/-! Inversion lemmas: what a successful payment creation / deletion did to
the state. -/

/-- The CREDIT journal row written by payment creation. -/
def payTxnOf (t u accId : Nat) (a : ℚ) (num pid : Nat) : Transaction :=
  { tenantId := t, accountId := accId, type := TxnType.CREDIT, amount := a,
    description := "Pago orden #" ++ toString num,
    referenceId := pid, referenceType := "PAYMENT", registeredBy := u }

theorem applyPayment_ok {db : DB} {t u : Nat}
    {orderId? paymentMethodId? : Option Nat} {amount? : Option ℚ}
    {n : Option String} {db' : DB} {p : Payment}
    (h : applyPayment db t u orderId? paymentMethodId? amount? n =
      .ok (db', p)) :
    ∃ oid pm a order,
      orderId? = some oid ∧ paymentMethodId? = some pm ∧ amount? = some a ∧
      findOrder db t oid = some order ∧
      p = { id := db.nextId, tenantId := t, orderId := oid,
            paymentMethodId := pm, amount := a, registeredBy := u,
            notes := n } ∧
      db'.payments = db.payments ++ [p] ∧
      db'.nextId = db.nextId + 1 ∧
      db'.orders = db.orders.map (fun x =>
        if x.id = oid then
          { x with balance := order.balance - a,
                   status := if order.balance - a ≤ 0 ∧
                       order.operationalStatus = OpStatus.DELIVERED then
                     OrderStatus.COMPLETED
                   else x.status }
        else x) ∧
      db'.statusHistory = db.statusHistory ++
        (if order.balance - a ≤ 0 ∧
            order.operationalStatus = OpStatus.DELIVERED then
          [{ tenantId := t, orderId := oid,
             fromStatus := some OrderStatus.ACTIVE,
             toStatus := OrderStatus.COMPLETED,
             reason := some "Fully paid and delivered", changedBy := u }]
        else []) ∧
      ((∃ acc, findAccount db t pm = some acc ∧
          db'.accounts = db.accounts.map (fun x =>
            if x.id = acc.id then { x with balance := x.balance + a }
            else x) ∧
          db'.transactions = db.transactions ++
            [payTxnOf t u acc.id a order.number db.nextId]) ∨
        (findAccount db t pm = none ∧ db'.accounts = db.accounts ∧
          db'.transactions = db.transactions)) := by
  rcases orderId? with _ | oid
  · simp [applyPayment] at h
  rcases paymentMethodId? with _ | pm
  · simp [applyPayment] at h
  rcases amount? with _ | a
  · simp [applyPayment] at h
  refine ⟨oid, pm, a, ?_⟩
  simp only [applyPayment] at h
  split at h
  · exact absurd h (by simp)
  split at h
  · exact absurd h (by simp)
  next order horder =>
    split at h
    · exact absurd h (by simp)
    split at h
    · exact absurd h (by simp)
    split at h
    next acc hacc =>
      simp only [Except.ok.injEq, Prod.mk.injEq] at h
      obtain ⟨hdb, hp⟩ := h
      subst hdb
      refine ⟨order, rfl, rfl, rfl, horder, hp.symm, by simp [hp], rfl, rfl,
        rfl, Or.inl ⟨acc, hacc, rfl, ?_⟩⟩
      simp [hp, payTxnOf]
    next hacc =>
      simp only [Except.ok.injEq, Prod.mk.injEq] at h
      obtain ⟨hdb, hp⟩ := h
      subst hdb
      exact ⟨order, rfl, rfl, rfl, horder, hp.symm, by simp [hp], rfl, rfl,
        rfl, Or.inr ⟨hacc, rfl, rfl⟩⟩

theorem deletePayment_ok {db : DB} {t u pid : Nat} {db' : DB}
    (h : deletePayment db t u pid = .ok db') :
    ∃ p order,
      findPayment db t pid = some p ∧
      findOrderById db p.orderId = some order ∧
      order.status ≠ OrderStatus.CANCELLED ∧
      db'.payments = db.payments.filter (fun q => decide (q.id ≠ pid)) ∧
      db'.nextId = db.nextId ∧
      db'.transactions = db.transactions.filter (fun x =>
        decide (¬(x.referenceId = pid ∧ x.referenceType = "PAYMENT"))) ∧
      db'.orders = db.orders.map (fun x =>
        if x.id = p.orderId then
          { x with balance := order.balance + p.amount,
                   status := if order.status = OrderStatus.COMPLETED then
                     OrderStatus.ACTIVE
                   else x.status }
        else x) ∧
      db'.statusHistory = db.statusHistory ++
        (if order.status = OrderStatus.COMPLETED then
          [{ tenantId := t, orderId := p.orderId,
             fromStatus := some OrderStatus.COMPLETED,
             toStatus := OrderStatus.ACTIVE,
             reason := some ("Payment deleted (" ++ toString p.amount
               ++ ")"),
             changedBy := u }]
        else []) ∧
      ((∃ acc, findAccount db t p.paymentMethodId = some acc ∧
          db'.accounts = db.accounts.map (fun x =>
            if x.id = acc.id then { x with balance := x.balance - p.amount }
            else x)) ∨
        (findAccount db t p.paymentMethodId = none ∧
          db'.accounts = db.accounts)) := by
  simp only [deletePayment] at h
  split at h
  · exact absurd h (by simp)
  next p hp =>
    split at h
    · exact absurd h (by simp)
    next order horder =>
      split at h
      · exact absurd h (by simp)
      next hstat =>
        refine ⟨p, order, hp, horder, hstat, ?_⟩
        rcases hAcc : findAccount db t p.paymentMethodId with _ | acc
        · rw [hAcc] at h
          simp only [Except.ok.injEq] at h
          subst h
          exact ⟨rfl, rfl, rfl, rfl, rfl, Or.inr ⟨rfl, rfl⟩⟩
        · rw [hAcc] at h
          simp only [Except.ok.injEq] at h
          subst h
          exact ⟨rfl, rfl, rfl, rfl, rfl, Or.inl ⟨acc, rfl, rfl⟩⟩

theorem creditSum_nil (aid : Nat) : creditSum [] aid = 0 := rfl

theorem debitSum_nil (aid : Nat) : debitSum [] aid = 0 := rfl

theorem txnsFor_append (ts₁ ts₂ : List Transaction) (pid : Nat) :
    txnsFor (ts₁ ++ ts₂) pid = txnsFor ts₁ pid ++ txnsFor ts₂ pid :=
  List.filter_append ..

/-- No transaction journals a not-yet-issued payment id. -/
theorem txnsFor_fresh (ts : List Transaction) (n : Nat)
    (h : ∀ x ∈ ts, x.referenceId < n) : txnsFor ts n = [] := by
  rw [txnsFor, List.filter_eq_nil_iff]
  intro x hx
  simp only [decide_eq_true_eq, not_and]
  intro hc
  exact absurd hc (Nat.ne_of_lt (h x hx))

theorem txnsFor_single_ne (x : Transaction) (q : Nat)
    (h : ¬x.referenceId = q) : txnsFor [x] q = [] := by
  simp [txnsFor, h]

theorem txnsFor_single_pay (x : Transaction) (q : Nat)
    (h : x.referenceId = q) (h2 : x.referenceType = "PAYMENT") :
    txnsFor [x] q = [x] := by
  simp [txnsFor, h, h2]

/-- Removing the journal rows of one payment does not change the journal
rows of another. -/
theorem txnsFor_filter_ne (ts : List Transaction) (pid qid : Nat)
    (hne : qid ≠ pid) :
    txnsFor (ts.filter fun x =>
      decide (¬(x.referenceId = pid ∧ x.referenceType = "PAYMENT"))) qid =
      txnsFor ts qid := by
  unfold txnsFor
  rw [List.filter_filter]
  apply List.filter_congr
  intro x _
  by_cases hq : x.referenceId = qid ∧ x.referenceType = "PAYMENT"
  · have hnp : ¬(x.referenceId = pid ∧ x.referenceType = "PAYMENT") :=
      fun hc => hne (hq.1.symm.trans hc.1)
    simp [hq, hnp, hne]
  · simp [hq]

theorem creditSum_payTxnOf (t u accId : Nat) (a : ℚ) (num pid aid : Nat) :
    creditSum [payTxnOf t u accId a num pid] aid =
      if accId = aid then a else 0 := by
  rw [creditSum_cons, creditSum_nil, add_zero]
  by_cases h : accId = aid
  · rw [if_pos h, if_pos ⟨h, rfl⟩]
    exact rfl
  · rw [if_neg h, if_neg (fun hc => h hc.1)]

theorem debitSum_payTxnOf (t u accId : Nat) (a : ℚ) (num pid aid : Nat) :
    debitSum [payTxnOf t u accId a num pid] aid = 0 := by
  rw [debitSum_cons, debitSum_nil, add_zero,
    if_neg (fun hc => TxnType.noConfusion hc.2)]

theorem find?_acc_map (l : List Account) (t pm : Nat) (f : Account → Account)
    (hf : ∀ x, (f x).tenantId = x.tenantId ∧
      (f x).paymentMethodId = x.paymentMethodId) :
    (l.map f).find? (accPred t pm) = (l.find? (accPred t pm)).map f :=
  find?_map_pred l f _ fun x => by simp [accPred, (hf x).1, (hf x).2]

/-- Payment creation preserves the ledger invariant. -/
theorem ledgerInv_applyPayment {db : DB} {t u : Nat}
    {orderId? paymentMethodId? : Option Nat} {amount? : Option ℚ}
    {n : Option String} {db' : DB} {p : Payment} (inv : LedgerInv db)
    (h : applyPayment db t u orderId? paymentMethodId? amount? n =
      .ok (db', p)) : LedgerInv db' := by
  obtain ⟨bal, payFresh, txnFresh, ptxns⟩ := inv
  obtain ⟨oid, pm, a, order, -, -, -, -, hp, hpays, hnext, -, -, hrest⟩ :=
    applyPayment_ok h
  have hpid : p.id = db.nextId := by rw [hp]
  have hpt : p.tenantId = t := by rw [hp]
  have hppm : p.paymentMethodId = pm := by rw [hp]
  have hpa : p.amount = a := by rw [hp]
  rcases hrest with ⟨acc, hacc, haccs, htxns⟩ | ⟨hacc, haccs, htxns⟩
  · have hidf : ∀ x : Account,
        ((fun x => if x.id = acc.id then
          { x with balance := x.balance + a } else x) x).id = x.id := by
      intro x
      by_cases hx : x.id = acc.id <;> simp [hx]
    have htpm : ∀ x : Account,
        ((fun x => if x.id = acc.id then
            { x with balance := x.balance + a } else x) x).tenantId =
            x.tenantId ∧
          ((fun x => if x.id = acc.id then
            { x with balance := x.balance + a } else x) x).paymentMethodId =
            x.paymentMethodId := by
      intro x
      by_cases hx : x.id = acc.id <;> simp [hx]
    refine ⟨?_, ?_, ?_, ?_⟩
    · intro x hx
      rw [haccs] at hx
      obtain ⟨y, hy, rfl⟩ := List.mem_map.mp hx
      rw [htxns, creditSum_append, debitSum_append]
      have hbal := bal y hy
      by_cases hid : y.id = acc.id
      · rw [if_pos hid]
        have hgoal : y.balance + a =
            creditSum db.transactions y.id +
              creditSum [payTxnOf t u acc.id a order.number db.nextId]
                y.id -
              (debitSum db.transactions y.id +
                debitSum [payTxnOf t u acc.id a order.number db.nextId]
                  y.id) := by
          rw [creditSum_payTxnOf, debitSum_payTxnOf, if_pos hid.symm, hbal]
          ring
        exact hgoal
      · rw [if_neg hid]
        have hgoal : y.balance =
            creditSum db.transactions y.id +
              creditSum [payTxnOf t u acc.id a order.number db.nextId]
                y.id -
              (debitSum db.transactions y.id +
                debitSum [payTxnOf t u acc.id a order.number db.nextId]
                  y.id) := by
          rw [creditSum_payTxnOf, debitSum_payTxnOf,
            if_neg (fun hc => hid hc.symm), hbal]
          ring
        exact hgoal
    · intro q hq
      rw [hpays] at hq
      rw [hnext]
      rcases List.mem_append.mp hq with hq | hq
      · exact Nat.lt_succ_of_lt (payFresh q hq)
      · rw [List.mem_singleton.mp hq, hpid]
        exact Nat.lt_succ_self _
    · intro x hx
      rw [htxns] at hx
      rw [hnext]
      rcases List.mem_append.mp hx with hx | hx
      · exact Nat.lt_succ_of_lt (txnFresh x hx)
      · rw [List.mem_singleton.mp hx]
        exact Nat.lt_succ_self _
    · intro q hq
      rw [hpays] at hq
      unfold payTxnSpec
      rw [htxns, txnsFor_append]
      have hfa : findAccount db' q.tenantId q.paymentMethodId =
          (findAccount db q.tenantId q.paymentMethodId).map
            (fun x => if x.id = acc.id then
              { x with balance := x.balance + a } else x) := by
        unfold findAccount
        rw [haccs]
        exact find?_acc_map _ _ _ _ htpm
      rcases List.mem_append.mp hq with hq | hq
      · have hqfresh :
            ¬(payTxnOf t u acc.id a order.number db.nextId).referenceId =
              q.id :=
          fun hc => Nat.ne_of_lt (payFresh q hq) hc.symm
        rw [txnsFor_single_ne _ _ hqfresh, List.append_nil, hfa]
        have hq' := ptxns q hq
        unfold payTxnSpec at hq'
        rcases hopt : findAccount db q.tenantId q.paymentMethodId with _ | A2
        · rw [hopt] at hq'
          exact hq'
        · rw [hopt] at hq'
          rw [hq']
          by_cases hA2 : A2.id = acc.id <;> simp [hA2]
      · obtain rfl := List.mem_singleton.mp hq
        have hfresh : txnsFor db.transactions q.id = [] := by
          rw [hpid]
          exact txnsFor_fresh _ _ txnFresh
        rw [hfresh, List.nil_append,
          txnsFor_single_pay _ _ (by rw [hpid]; exact rfl) rfl, hfa, hpt, hppm, hacc]
        simp [payTxnOf, hpa]
  · refine ⟨?_, ?_, ?_, ?_⟩
    · intro x hx
      rw [haccs] at hx
      rw [htxns]
      exact bal x hx
    · intro q hq
      rw [hpays] at hq
      rw [hnext]
      rcases List.mem_append.mp hq with hq | hq
      · exact Nat.lt_succ_of_lt (payFresh q hq)
      · rw [List.mem_singleton.mp hq, hpid]
        exact Nat.lt_succ_self _
    · intro x hx
      rw [htxns] at hx
      rw [hnext]
      exact Nat.lt_succ_of_lt (txnFresh x hx)
    · intro q hq
      rw [hpays] at hq
      unfold payTxnSpec
      rw [htxns]
      have hfa : findAccount db' q.tenantId q.paymentMethodId =
          findAccount db q.tenantId q.paymentMethodId := by
        unfold findAccount
        rw [haccs]
      rw [hfa]
      rcases List.mem_append.mp hq with hq | hq
      · exact ptxns q hq
      · rw [List.mem_singleton.mp hq]
        have hfresh : txnsFor db.transactions p.id = [] := by
          rw [hpid]
          exact txnsFor_fresh _ _ txnFresh
        rw [hfresh, hpt, hppm, hacc]
        simp

/-- Payment deletion preserves the ledger invariant. -/
theorem ledgerInv_deletePayment {db : DB} {t u pid : Nat} {db' : DB}
    (inv : LedgerInv db) (h : deletePayment db t u pid = .ok db') :
    LedgerInv db' := by
  obtain ⟨bal, payFresh, txnFresh, ptxns⟩ := inv
  obtain ⟨p, order, hp, -, -, hpays, hnext, htxns, -, -, hrest⟩ :=
    deletePayment_ok h
  have hpmem : p ∈ db.payments := List.mem_of_find?_eq_some hp
  have hpp : p.id = pid ∧ p.tenantId = t := by
    have := List.find?_some hp
    simpa [payPred] using this
  have hpspec := ptxns p hpmem
  unfold payTxnSpec at hpspec
  rw [hpp.1] at hpspec
  have hkeep : db'.transactions =
      db.transactions.filter fun x =>
        !(decide (x.referenceId = pid ∧ x.referenceType = "PAYMENT")) := by
    rw [htxns]
    apply List.filter_congr
    intro x _
    exact decide_not
  have hfilterm : db.transactions.filter (fun x =>
      decide (x.referenceId = pid ∧ x.referenceType = "PAYMENT")) =
      txnsFor db.transactions pid := rfl
  have hcs : ∀ aid,
      creditSum db'.transactions aid =
        creditSum db.transactions aid -
          creditSum (txnsFor db.transactions pid) aid := by
    intro aid
    have hsplit := creditSum_filter_split db.transactions
      (fun x => decide (x.referenceId = pid ∧ x.referenceType = "PAYMENT"))
      aid
    rw [hfilterm] at hsplit
    rw [hkeep]
    linarith
  have hds : ∀ aid,
      debitSum db'.transactions aid =
        debitSum db.transactions aid -
          debitSum (txnsFor db.transactions pid) aid := by
    intro aid
    have hsplit := debitSum_filter_split db.transactions
      (fun x => decide (x.referenceId = pid ∧ x.referenceType = "PAYMENT"))
      aid
    rw [hfilterm] at hsplit
    rw [hkeep]
    linarith
  rcases hrest with ⟨acc, hacc, haccs⟩ | ⟨hacc, haccs⟩
  · have hacc' : findAccount db p.tenantId p.paymentMethodId = some acc := by
      rw [hpp.2]
      exact hacc
    rw [hacc'] at hpspec
    have hsums := sums_of_proj_singleton _ _ _ hpspec
    have htpm : ∀ x : Account,
        ((fun x => if x.id = acc.id then
            { x with balance := x.balance - p.amount } else x) x).tenantId =
            x.tenantId ∧
          ((fun x => if x.id = acc.id then
            { x with balance := x.balance - p.amount } else x)
              x).paymentMethodId = x.paymentMethodId := by
      intro x
      by_cases hx : x.id = acc.id <;> simp [hx]
    refine ⟨?_, ?_, ?_, ?_⟩
    · intro x hx
      rw [haccs] at hx
      obtain ⟨y, hy, rfl⟩ := List.mem_map.mp hx
      have hbal := bal y hy
      by_cases hid : y.id = acc.id
      · rw [if_pos hid]
        have hgoal : y.balance - p.amount =
            creditSum db'.transactions y.id -
              debitSum db'.transactions y.id := by
          rw [hcs, hds, (hsums y.id).1, (hsums y.id).2,
            if_pos hid.symm, hbal]
          ring
        exact hgoal
      · rw [if_neg hid]
        have hgoal : y.balance =
            creditSum db'.transactions y.id -
              debitSum db'.transactions y.id := by
          rw [hcs, hds, (hsums y.id).1, (hsums y.id).2,
            if_neg (fun hc => hid hc.symm), hbal]
          ring
        exact hgoal
    · intro q hq
      rw [hpays] at hq
      rw [hnext]
      exact payFresh q (List.mem_filter.mp hq).1
    · intro x hx
      rw [hkeep] at hx
      rw [hnext]
      exact txnFresh x (List.mem_filter.mp hx).1
    · intro q hq
      rw [hpays] at hq
      obtain ⟨hqmem, hqne⟩ := List.mem_filter.mp hq
      have hqne' : q.id ≠ pid := of_decide_eq_true hqne
      unfold payTxnSpec
      rw [htxns, txnsFor_filter_ne _ _ _ hqne']
      have hfa : findAccount db' q.tenantId q.paymentMethodId =
          (findAccount db q.tenantId q.paymentMethodId).map
            (fun x => if x.id = acc.id then
              { x with balance := x.balance - p.amount } else x) := by
        unfold findAccount
        rw [haccs]
        exact find?_acc_map _ _ _ _ htpm
      rw [hfa]
      have hq' := ptxns q hqmem
      unfold payTxnSpec at hq'
      rcases hopt : findAccount db q.tenantId q.paymentMethodId with _ | A2
      · rw [hopt] at hq'
        exact hq'
      · rw [hopt] at hq'
        rw [hq']
        by_cases hA2 : A2.id = acc.id <;> simp [hA2]
  · have hacc' : findAccount db p.tenantId p.paymentMethodId = none := by
      rw [hpp.2]
      exact hacc
    rw [hacc'] at hpspec
    have hnil : txnsFor db.transactions pid = [] :=
      List.map_eq_nil_iff.mp hpspec
    have hsame : db'.transactions = db.transactions := by
      rw [hkeep]
      apply List.filter_eq_self.mpr
      intro x hx
      have hnm := List.filter_eq_nil_iff.mp hnil x hx
      simp only [decide_eq_true_eq] at hnm
      simp [hnm]
    refine ⟨?_, ?_, ?_, ?_⟩
    · intro x hx
      rw [haccs] at hx
      rw [hsame]
      exact bal x hx
    · intro q hq
      rw [hpays] at hq
      rw [hnext]
      exact payFresh q (List.mem_filter.mp hq).1
    · intro x hx
      rw [hsame] at hx
      rw [hnext]
      exact txnFresh x hx
    · intro q hq
      rw [hpays] at hq
      obtain ⟨hqmem, -⟩ := List.mem_filter.mp hq
      unfold payTxnSpec
      rw [hsame]
      have hfa : findAccount db' q.tenantId q.paymentMethodId =
          findAccount db q.tenantId q.paymentMethodId := by
        unfold findAccount
        rw [haccs]
      rw [hfa]
      exact ptxns q hqmem

/-- Any request sequence against payment creation / deletion preserves the
ledger invariant. -/
theorem ledgerInv_runOp (db : DB) (op : LedgerOp) (inv : LedgerInv db) :
    LedgerInv (runOp db op) := by
  cases op with
  | pay t u o pm a n =>
    rcases h : applyPayment db t u o pm a n with e | ⟨db2, p2⟩
    · have hrun : runOp db (.pay t u o pm a n) = db := by
        simp only [runOp, h]
      rw [hrun]
      exact inv
    · have hrun : runOp db (.pay t u o pm a n) = db2 := by
        simp only [runOp, h]
      rw [hrun]
      exact ledgerInv_applyPayment inv h
  | del t u pid =>
    rcases h : deletePayment db t u pid with e | db2
    · have hrun : runOp db (.del t u pid) = db := by
        simp only [runOp, h]
      rw [hrun]
      exact inv
    · have hrun : runOp db (.del t u pid) = db2 := by
        simp only [runOp, h]
      rw [hrun]
      exact ledgerInv_deletePayment inv h

theorem ledgerInv_runOps (db : DB) (ops : List LedgerOp)
    (inv : LedgerInv db) : LedgerInv (runOps db ops) := by
  induction ops generalizing db with
  | nil => exact inv
  | cons op ops ih => exact ih _ (ledgerInv_runOp db op inv)

theorem find?_ord_map (l : List Order) (t oid : Nat) (f : Order → Order)
    (hf : ∀ x, (f x).id = x.id ∧ (f x).tenantId = x.tenantId) :
    (l.map f).find? (ordPred t oid) = (l.find? (ordPred t oid)).map f :=
  find?_map_pred l f _ fun x => by simp [ordPred, (hf x).1, (hf x).2]

theorem find?_ordId_map (l : List Order) (oid : Nat) (f : Order → Order)
    (hf : ∀ x, (f x).id = x.id) :
    (l.map f).find? (ordIdPred oid) = (l.find? (ordIdPred oid)).map f :=
  find?_map_pred l f _ fun x => by simp [ordIdPred, hf x]

/-! Concrete states for witnesses and counterexamples. -/

/-- An ACTIVE, not yet delivered order worth 100 with nothing paid. -/
def oA : Order :=
  { id := 1, tenantId := 1, number := 1, customerId := 1, subtotal := 100,
    taxRate := 0, taxAmount := 0, discount := 0, total := 100, balance := 100,
    status := OrderStatus.ACTIVE, operationalStatus := OpStatus.PENDING,
    cancellationReason := none }

/-- The cash account of payment method 3. -/
def accA : Account :=
  { id := 10, tenantId := 1, paymentMethodId := 3, balance := 0 }

/-- A tenant with one open order, one account and an empty journal. -/
def dbA : DB :=
  { orders := [oA], orderItems := [], payments := [], accounts := [accA],
    transactions := [], statusHistory := [], nextId := 100 }

/-! Claim C1: effects of payment creation. -/

/-- Effects of a successful payment creation on an order `o` through an
existing account `acc`: payment row appended, order balance decreased by
the amount (the order completing, with a history entry, exactly when the
new balance is non-positive and the order is DELIVERED), CREDIT PAYMENT
transaction appended, and the account balance increased by the amount. -/
def AppliedPaymentEffects (db : DB) (t u oid pm : Nat) (a : ℚ)
    (notes : Option String) (o : Order) (acc : Account) : Prop :=
  ∃ db' p,
    applyPayment db t u (some oid) (some pm) (some a) notes =
      Except.ok (db', p) ∧
    p = { id := db.nextId, tenantId := t, orderId := oid,
          paymentMethodId := pm, amount := a, registeredBy := u,
          notes := notes } ∧
    db'.payments = db.payments ++ [p] ∧
    findOrder db' t oid = some
      { o with balance := o.balance - a,
               status := if o.balance - a ≤ 0 ∧
                   o.operationalStatus = OpStatus.DELIVERED then
                 OrderStatus.COMPLETED
               else o.status } ∧
    db'.transactions = db.transactions ++
      [payTxnOf t u acc.id a o.number db.nextId] ∧
    findAccount db' t pm = some { acc with balance := acc.balance + a } ∧
    db'.statusHistory = db.statusHistory ++
      (if o.balance - a ≤ 0 ∧ o.operationalStatus = OpStatus.DELIVERED then
        [{ tenantId := t, orderId := oid,
           fromStatus := some OrderStatus.ACTIVE,
           toStatus := OrderStatus.COMPLETED,
           reason := some "Fully paid and delivered", changedBy := u }]
      else [])

/-- C1 (amended): for every payment creation on an ACTIVE order with
0 < amount ≤ balance whose method has an Account, applyPayment inserts the
Payment, decreases order.balance by amount, transitions the order to
COMPLETED (appending a status-history entry) exactly when the resulting
balance is ≤ 0 and the order's operationalStatus is DELIVERED, inserts a
CREDIT Transaction with referenceType PAYMENT on the Account for the
chosen method, and increases that Account's balance by amount. -/
theorem applyPayment_effects (db : DB) (t u oid pm : Nat) (a : ℚ)
    (notes : Option String) (o : Order) (acc : Account)
    (hord : findOrder db t oid = some o)
    (hact : o.status = OrderStatus.ACTIVE)
    (hpos : 0 < a) (hle : a ≤ o.balance)
    (hacc : findAccount db t pm = some acc) :
    AppliedPaymentEffects db t u oid pm a notes o acc := by
  have hne : ¬(a = 0) := ne_of_gt hpos
  have hstat : ¬(o.status ≠ OrderStatus.ACTIVE) := fun hc => hc hact
  have hnbal : ¬(a > o.balance) := not_lt.mpr hle
  have hoid : o.id = oid ∧ o.tenantId = t := by
    have := List.find?_some hord
    simpa [ordPred] using this
  rcases hrun : applyPayment db t u (some oid) (some pm) (some a) notes
    with e | ⟨db', p⟩
  · exfalso
    simp only [applyPayment, if_neg hne, hord, if_neg hstat, if_neg hnbal,
      hacc] at hrun
    exact Except.noConfusion hrun
  · obtain ⟨oid2, pm2, a2, o2, he1, he2, he3, hord2, hp, hpays, -, horders,
      hhist, hrest⟩ := applyPayment_ok hrun
    obtain rfl : oid = oid2 := (Option.some.injEq ..).mp he1
    obtain rfl : pm = pm2 := (Option.some.injEq ..).mp he2
    obtain rfl : a = a2 := (Option.some.injEq ..).mp he3
    obtain rfl : o = o2 := by
      rw [hord] at hord2
      exact (Option.some.injEq ..).mp hord2
    rcases hrest with ⟨acc2, hacc2, haccs, htxns⟩ | ⟨hacc2, -, -⟩
    · obtain rfl : acc = acc2 := by
        rw [hacc] at hacc2
        exact (Option.some.injEq ..).mp hacc2
      refine ⟨db', p, hrun, hp, hpays, ?_, htxns, ?_, hhist⟩
      · unfold findOrder
        rw [horders,
          find?_ord_map _ _ _ _ (fun x => by
            by_cases hx : x.id = oid <;> simp [hx])]
        unfold findOrder at hord
        rw [hord, Option.map_some', if_pos hoid.1]
      · unfold findAccount
        rw [haccs,
          find?_acc_map _ _ _ _ (fun x => by
            by_cases hx : x.id = acc.id <;> simp [hx])]
        unfold findAccount at hacc
        rw [hacc, Option.map_some', if_pos rfl]
    · rw [hacc] at hacc2
      cases hacc2

/-- C1 witness: the amended effects at a concrete state (order worth 100,
PENDING, payment of 40 by method 3). -/
theorem applyPayment_effects_witness :
    findOrder dbA 1 1 = some oA ∧ oA.status = OrderStatus.ACTIVE ∧
      (0 : ℚ) < 40 ∧ (40 : ℚ) ≤ oA.balance ∧
      findAccount dbA 1 3 = some accA ∧
      AppliedPaymentEffects dbA 1 7 1 3 40 none oA accA :=
  ⟨by decide, by decide, by norm_num, by decide, by decide,
    applyPayment_effects dbA 1 7 1 3 40 none oA accA (by decide) (by decide)
      (by norm_num) (by decide) (by decide)⟩

/-- C1 counterexample: the claim as stated (completion whenever the
resulting balance is ≤ 0, regardless of operational status) fails on the
part_005 revision: paying the full 100 on the PENDING order dbA leaves the
order ACTIVE with balance 0. -/
theorem applyPayment_claim_counterexample :
    ∃ db' p,
      applyPayment dbA 1 7 (some 1) (some 3) (some 100) none =
        Except.ok (db', p) ∧
      (findOrder db' 1 1).map (fun o => o.balance) = some 0 ∧
      (findOrder db' 1 1).map (fun o => o.status) =
        some OrderStatus.ACTIVE := by
  refine ⟨_, _, rfl, ?_, ?_⟩
  · norm_num [findOrder, ordPred, dbA, oA, accA]
  · norm_num [findOrder, ordPred, dbA, oA, accA]
    decide

/-! Claim C2: payment-creation validation. -/

/-- C2 (amended): a payment creation fails — returning an error, with no
state produced (the route transaction rolls back) — exactly when it is not
the case that the request carries an orderId, a paymentMethodId and a
nonzero amount, the order exists for the tenant, its status is ACTIVE, and
the amount does not exceed the order balance.  In particular a zero amount
is rejected (falsy required field), but no positivity check exists. -/
theorem applyPayment_validation (db : DB) (t u : Nat)
    (orderId? paymentMethodId? : Option Nat) (amount? : Option ℚ)
    (notes : Option String) :
    (∃ e, applyPayment db t u orderId? paymentMethodId? amount? notes =
        Except.error e) ↔
      ¬(∃ oid pm a o, orderId? = some oid ∧ paymentMethodId? = some pm ∧
          amount? = some a ∧ a ≠ 0 ∧ findOrder db t oid = some o ∧
          o.status = OrderStatus.ACTIVE ∧ a ≤ o.balance) := by
  rcases orderId? with _ | oid
  · simp [applyPayment]
  rcases paymentMethodId? with _ | pm
  · simp [applyPayment]
  rcases amount? with _ | a
  · simp [applyPayment]
  by_cases h0 : a = 0
  · simp [applyPayment, h0]
  rcases hord : findOrder db t oid with _ | o
  · simp [applyPayment, if_neg h0, hord, h0]
  by_cases hstat : o.status = OrderStatus.ACTIVE
  · by_cases hbal : a > o.balance
    · simp [applyPayment, if_neg h0, hord, hstat, h0, hbal, not_le.mpr hbal]
    · rcases hacc : findAccount db t pm with _ | acc <;>
        simp [applyPayment, if_neg h0, hord, hstat, h0, hacc, hbal,
          not_lt.mp hbal]
  · simp [applyPayment, if_neg h0, hord, h0, hstat]

/-- C2 counterexample: a payment of amount -1 (≤ 0) on the ACTIVE order of
dbA is accepted, so the claim that every call with amount ≤ 0 is rejected
is false. -/
theorem applyPayment_negative_accepted :
    (-1 : ℚ) ≤ 0 ∧
      ∃ db' p, applyPayment dbA 1 7 (some 1) (some 3) (some (-1)) none =
        Except.ok (db', p) :=
  ⟨by norm_num, _, _, rfl⟩

/-- An ACTIVE, PENDING order worth 100 with 50 already paid. -/
def oB : Order :=
  { id := 2, tenantId := 1, number := 2, customerId := 1, subtotal := 100,
    taxRate := 0, taxAmount := 0, discount := 0, total := 100, balance := 50,
    status := OrderStatus.ACTIVE, operationalStatus := OpStatus.PENDING,
    cancellationReason := none }

/-- The payment of 50 already registered on oB. -/
def pB : Payment :=
  { id := 20, tenantId := 1, orderId := 2, paymentMethodId := 3, amount := 50,
    registeredBy := 7, notes := none }

/-- The account of method 3 holding the 50 received on oB. -/
def accB : Account :=
  { id := 11, tenantId := 1, paymentMethodId := 3, balance := 50 }

/-- The CREDIT journal row of pB. -/
def txnB : Transaction := payTxnOf 1 7 11 50 2 20

/-- A tenant state where pB has been applied to oB. -/
def dbB : DB :=
  { orders := [oB], orderItems := [], payments := [pB], accounts := [accB],
    transactions := [txnB], statusHistory := [], nextId := 21 }

/-! Claim C5: effects of a payment edit that changes the amount. -/

/-- Effects of a successful payment edit to a new nonzero amount `na` with
diff = na - oldAmount nonzero: payment row updated; order balance moved by
-diff with the status rule of the source (COMPLETED only when the new
balance is ≤ 0, the order was ACTIVE and it is DELIVERED; reopened when the
new balance is > 0 and it was COMPLETED); the account of the payment's
original method moved by +diff; journal and history untouched. -/
def EditedPaymentEffects (db : DB) (t pid : Nat) (pm? : Option Nat) (na : ℚ)
    (notes? : Option (Option String)) (p : Payment) (ord : Order)
    (acc : Account) : Prop :=
  ∃ db' upd,
    editPayment db t pid pm? (some na) notes? = Except.ok (db', upd) ∧
    upd = { p with
              paymentMethodId := match pm? with
                | some pm => pm
                | none => p.paymentMethodId,
              amount := na,
              notes := match notes? with
                | some n => n
                | none => p.notes } ∧
    db'.payments = db.payments.map (fun q => if q.id = pid then upd else q) ∧
    findOrderById db' p.orderId = some
      { ord with
          balance := ord.balance - (na - p.amount),
          status :=
            (if ord.balance - (na - p.amount) ≤ 0 ∧
                ord.status = OrderStatus.ACTIVE ∧
                ord.operationalStatus = OpStatus.DELIVERED then
              some OrderStatus.COMPLETED
            else if ord.balance - (na - p.amount) > 0 ∧
                ord.status = OrderStatus.COMPLETED then
              some OrderStatus.ACTIVE
            else none).getD ord.status } ∧
    findAccount db' t p.paymentMethodId = some
      { acc with balance := acc.balance + (na - p.amount) } ∧
    db'.transactions = db.transactions ∧
    db'.statusHistory = db.statusHistory

/-- C5 (amended): a payment edit to a nonzero amount fails when the parent
order is CANCELLED, and fails when newAmount > order.balance + oldAmount;
otherwise (with diff = newAmount - oldAmount nonzero and the original
method's account present) it updates the Payment, decreases order.balance
by diff, transitions ACTIVE to COMPLETED only when the new balance is ≤ 0
AND the order's operationalStatus is DELIVERED, transitions COMPLETED to
ACTIVE when the new balance is > 0, and adjusts the Account balance of the
payment's original method by diff. -/
theorem editPayment_effects (db : DB) (t pid : Nat) (pm? : Option Nat)
    (na : ℚ) (notes? : Option (Option String)) (p : Payment) (ord : Order)
    (acc : Account)
    (hpay : findPayment db t pid = some p)
    (hordid : findOrderById db p.orderId = some ord)
    (hna : na ≠ 0) :
    (ord.status = OrderStatus.CANCELLED →
      ∃ e, editPayment db t pid pm? (some na) notes? = Except.error e) ∧
    (na > ord.balance + p.amount →
      ∃ e, editPayment db t pid pm? (some na) notes? = Except.error e) ∧
    (ord.status ≠ OrderStatus.CANCELLED →
      na ≤ ord.balance + p.amount → na - p.amount ≠ 0 →
      findAccount db t p.paymentMethodId = some acc →
      EditedPaymentEffects db t pid pm? na notes? p ord acc) := by
  have hpoid : ord.id = p.orderId := by
    have := List.find?_some hordid
    simpa [ordIdPred] using this
  refine ⟨?_, ?_, ?_⟩
  · intro hc
    simp only [editPayment, hpay, hordid]
    rw [if_pos hc]
    exact ⟨_, rfl⟩
  · intro hgt
    simp only [editPayment, hpay, hordid]
    by_cases hc : ord.status = OrderStatus.CANCELLED
    · rw [if_pos hc]
      exact ⟨_, rfl⟩
    · rw [if_neg hc]
      simp only [if_pos hna]
      rw [if_pos hgt]
      exact ⟨_, rfl⟩
  intro hnc hle hdiff hacc
  unfold EditedPaymentEffects
  simp only [editPayment, hpay, hordid, if_neg hnc, if_pos hna]
  rw [if_neg (not_lt.mpr hle), if_neg hdiff, hacc]
  refine ⟨_, _, rfl, rfl, rfl, ?_, ?_, rfl, rfl⟩
  · unfold findOrderById
    rw [show
        (db.orders.map fun o =>
          if o.id = p.orderId then
            { o with
                balance := ord.balance - (na - p.amount),
                status :=
                  (if ord.balance - (na - p.amount) ≤ 0 ∧
                      ord.status = OrderStatus.ACTIVE ∧
                      ord.operationalStatus = OpStatus.DELIVERED then
                    some OrderStatus.COMPLETED
                  else if ord.balance - (na - p.amount) > 0 ∧
                      ord.status = OrderStatus.COMPLETED then
                    some OrderStatus.ACTIVE
                  else none).getD o.status }
          else o).find? (ordIdPred p.orderId) =
        ((db.orders.find? (ordIdPred p.orderId)).map fun o =>
          if o.id = p.orderId then
            { o with
                balance := ord.balance - (na - p.amount),
                status :=
                  (if ord.balance - (na - p.amount) ≤ 0 ∧
                      ord.status = OrderStatus.ACTIVE ∧
                      ord.operationalStatus = OpStatus.DELIVERED then
                    some OrderStatus.COMPLETED
                  else if ord.balance - (na - p.amount) > 0 ∧
                      ord.status = OrderStatus.COMPLETED then
                    some OrderStatus.ACTIVE
                  else none).getD o.status }
          else o)
      from find?_ordId_map _ _ _ (fun x => by
        by_cases hx : x.id = p.orderId <;> simp [hx])]
    unfold findOrderById at hordid
    rw [hordid, Option.map_some', if_pos hpoid]
  · unfold findAccount
    rw [show
        (db.accounts.map fun a =>
          if a.id = acc.id then
            { a with balance := a.balance + (na - p.amount) }
          else a).find? (accPred t p.paymentMethodId) =
        ((db.accounts.find? (accPred t p.paymentMethodId)).map fun a =>
          if a.id = acc.id then
            { a with balance := a.balance + (na - p.amount) }
          else a)
      from find?_acc_map _ _ _ _ (fun x => by
        by_cases hx : x.id = acc.id <;> simp [hx])]
    unfold findAccount at hacc
    rw [hacc, Option.map_some', if_pos rfl]

/-- C5 witness: at a concrete state, editing the 50 payment on oB down to
30 produces the success effects, and editing it up to 200 (which exceeds
balance + oldAmount = 100) is rejected. -/
theorem editPayment_effects_witness :
    findPayment dbB 1 20 = some pB ∧
      findOrderById dbB pB.orderId = some oB ∧ (30 : ℚ) ≠ 0 ∧
      oB.status ≠ OrderStatus.CANCELLED ∧
      (30 : ℚ) ≤ oB.balance + pB.amount ∧
      (30 : ℚ) - pB.amount ≠ 0 ∧
      findAccount dbB 1 pB.paymentMethodId = some accB ∧
      EditedPaymentEffects dbB 1 20 none 30 none pB oB accB ∧
      (200 : ℚ) ≠ 0 ∧ (200 : ℚ) > oB.balance + pB.amount ∧
      (∃ e, editPayment dbB 1 20 none (some 200) none =
        Except.error e) :=
  ⟨by decide, by decide, by norm_num, by decide, by norm_num [oB, pB],
    by norm_num [pB], by decide,
    (editPayment_effects dbB 1 20 none 30 none pB oB accB (by decide)
      (by decide) (by norm_num)).2.2 (by decide) (by norm_num [oB, pB])
      (by norm_num [pB]) (by decide),
    by norm_num, by norm_num [oB, pB],
    (editPayment_effects dbB 1 20 none 200 none pB oB accB (by decide)
      (by decide) (by norm_num)).2.1 (by norm_num [oB, pB])⟩

/-- The state produced by editing pB from 50 up to 100 on dbB. -/
def dbBedit : DB :=
  { orders := [{ oB with balance := 0 }], orderItems := [],
    payments := [{ pB with amount := 100 }],
    accounts := [{ accB with balance := 100 }], transactions := [txnB],
    statusHistory := [], nextId := 21 }

/-- C5 counterexample: editing the payment on the ACTIVE, PENDING order oB
from 50 to 100 drives the new balance to 0 (≤ 0) yet the order stays
ACTIVE, refuting the claim that the edit transitions ACTIVE to COMPLETED
whenever the new balance is ≤ 0. -/
theorem editPayment_claim_counterexample :
    editPayment dbB 1 20 none (some 100) none =
      Except.ok (dbBedit, { pB with amount := 100 }) ∧
    (findOrderById dbBedit 2).map (fun o => o.balance) = some 0 ∧
    (findOrderById dbBedit 2).map (fun o => o.status) =
      some OrderStatus.ACTIVE := by
  refine ⟨?_, by decide, by decide⟩
  norm_num [editPayment, findPayment, payPred, findOrderById, ordIdPred,
    findAccount, accPred, List.find?, dbB, dbBedit, pB, oB, accB, txnB,
    payTxnOf]
  simp

/-! Claim C9: a payment edit that leaves the amount unchanged. -/

/-- C9: when an edit leaves the amount unchanged (absent amount field, or
the same amount resent), only the payment row is rewritten: orders,
accounts, transactions and status history are untouched, and the payment
keeps its amount. -/
theorem editPayment_frame (db : DB) (t pid : Nat) (pm? : Option Nat)
    (amount? : Option ℚ) (notes? : Option (Option String)) (p : Payment)
    (ord : Order)
    (hpay : findPayment db t pid = some p)
    (hordid : findOrderById db p.orderId = some ord)
    (hnc : ord.status ≠ OrderStatus.CANCELLED)
    (hbal : 0 ≤ ord.balance)
    (hAmt : amount? = none ∨ amount? = some p.amount) :
    ∃ db' upd,
      editPayment db t pid pm? amount? notes? = Except.ok (db', upd) ∧
      db'.orders = db.orders ∧ db'.accounts = db.accounts ∧
      db'.transactions = db.transactions ∧
      db'.statusHistory = db.statusHistory ∧
      db'.payments =
        db.payments.map (fun q => if q.id = pid then upd else q) ∧
      upd.amount = p.amount := by
  have hgt : ¬(ord.balance + p.amount < p.amount) :=
    not_lt.mpr ((le_add_iff_nonneg_left p.amount).mpr hbal)
  rcases hAmt with rfl | rfl
  · simp only [editPayment, hpay, hordid, if_neg hnc]
    rw [if_neg hgt, if_pos (sub_self p.amount)]
    exact ⟨_, _, rfl, rfl, rfl, rfl, rfl, rfl, rfl⟩
  · simp only [editPayment, hpay, hordid, if_neg hnc, ite_self]
    rw [if_neg hgt, if_pos (sub_self p.amount)]
    exact ⟨_, _, rfl, rfl, rfl, rfl, rfl, rfl, rfl⟩

/-- C9 witness: editing only the notes of the payment on dbB. -/
theorem editPayment_frame_witness :
    findPayment dbB 1 20 = some pB ∧
      findOrderById dbB pB.orderId = some oB ∧
      oB.status ≠ OrderStatus.CANCELLED ∧ (0 : ℚ) ≤ oB.balance ∧
      (∃ db' upd,
        editPayment dbB 1 20 none none (some (some "edited")) =
          Except.ok (db', upd) ∧
        db'.orders = dbB.orders ∧ db'.accounts = dbB.accounts ∧
        db'.transactions = dbB.transactions ∧
        db'.statusHistory = dbB.statusHistory ∧
        db'.payments =
          dbB.payments.map (fun q => if q.id = 20 then upd else q) ∧
        upd.amount = pB.amount) :=
  ⟨by decide, by decide, by decide, by decide,
    editPayment_frame dbB 1 20 none none (some (some "edited")) pB oB
      (by decide) (by decide) (by decide) (by decide) (Or.inl rfl)⟩

theorem findOrderById_map_eq {l2 l1 : List Order} {G : Order → Order}
    (h : l2 = l1.map G) (hGid : ∀ x, (G x).id = x.id) {oid : Nat}
    {oo : Order} (hf : l1.find? (ordIdPred oid) = some oo) :
    l2.find? (ordIdPred oid) = some (G oo) := by
  rw [h, find?_ordId_map _ _ _ hGid, hf, Option.map_some']

theorem findAccount_map_eq {l2 l1 : List Account} {H : Account → Account}
    (h : l2 = l1.map H)
    (hH : ∀ x, (H x).tenantId = x.tenantId ∧
      (H x).paymentMethodId = x.paymentMethodId) {t pm : Nat} {aa : Account}
    (hf : l1.find? (accPred t pm) = some aa) :
    l2.find? (accPred t pm) = some (H aa) := by
  rw [h, find?_acc_map _ _ _ _ hH, hf, Option.map_some']

/-! Claim C4: deletePayment reverses applyPayment exactly. -/

/-- C4: applying a payment of 0 < a ≤ balance on an ACTIVE order through an
existing account, then deleting the created payment, restores the order
balance and the account balance to their pre-payment values. -/
theorem applyPayment_deletePayment_roundtrip (db : DB) (t u oid pm : Nat)
    (a : ℚ) (notes : Option String) (o : Order) (acc : Account)
    (hord : findOrder db t oid = some o)
    (hordid : findOrderById db oid = some o)
    (hact : o.status = OrderStatus.ACTIVE)
    (hpos : 0 < a) (hle : a ≤ o.balance)
    (hacc : findAccount db t pm = some acc)
    (hfresh : ∀ q ∈ db.payments, q.id ≠ db.nextId) :
    ∃ db1 p db2,
      applyPayment db t u (some oid) (some pm) (some a) notes =
        Except.ok (db1, p) ∧
      deletePayment db1 t u p.id = Except.ok db2 ∧
      (∃ o2, findOrderById db2 oid = some o2 ∧ o2.balance = o.balance) ∧
      (∃ acc2, findAccount db2 t pm = some acc2 ∧
        acc2.balance = acc.balance) := by
  have hne : ¬(a = 0) := ne_of_gt hpos
  have hstat : ¬(o.status ≠ OrderStatus.ACTIVE) := fun hc => hc hact
  have hnbal : ¬(a > o.balance) := not_lt.mpr hle
  have hoid : o.id = oid := by
    have := List.find?_some hordid
    simpa [ordIdPred] using this
  rcases hrun : applyPayment db t u (some oid) (some pm) (some a) notes
    with e | ⟨db1, p⟩
  · exfalso
    simp only [applyPayment, if_neg hne, hord, if_neg hstat, if_neg hnbal,
      hacc] at hrun
    exact Except.noConfusion hrun
  · obtain ⟨oid2, pm2, a2, o2, he1, he2, he3, hord2, hp, hpays, hnext,
      horders, hhist, hrest⟩ := applyPayment_ok hrun
    obtain rfl : oid = oid2 := (Option.some.injEq ..).mp he1
    obtain rfl : pm = pm2 := (Option.some.injEq ..).mp he2
    obtain rfl : a = a2 := (Option.some.injEq ..).mp he3
    obtain rfl : o = o2 := by
      rw [hord] at hord2
      exact (Option.some.injEq ..).mp hord2
    rcases hrest with ⟨acc2, hacc2, haccs, htxns⟩ | ⟨hacc2, -, -⟩
    swap
    · rw [hacc] at hacc2
      cases hacc2
    obtain rfl : acc = acc2 := by
      rw [hacc] at hacc2
      exact (Option.some.injEq ..).mp hacc2
    have hpid : p.id = db.nextId := by rw [hp]
    have hpt : p.tenantId = t := by rw [hp]
    have hppm : p.paymentMethodId = pm := by rw [hp]
    have hpa : p.amount = a := by rw [hp]
    have hpoid : p.orderId = oid := by rw [hp]
    have hpay1 : findPayment db1 t p.id = some p := by
      unfold findPayment
      rw [hpays, List.find?_append]
      have h1 : db.payments.find? (payPred t p.id) = none := by
        rw [List.find?_eq_none]
        intro q hq
        simp only [payPred, decide_eq_true_eq, not_and]
        intro hqid
        exact absurd (hpid ▸ hqid) (hfresh q hq)
      rw [h1]
      simp [payPred, hpt]
    have hord1 : findOrderById db1 oid = some
        { o with
            balance := o.balance - a,
            status := if o.balance - a ≤ 0 ∧
                o.operationalStatus = OpStatus.DELIVERED then
              OrderStatus.COMPLETED
            else o.status } := by
      unfold findOrderById
      rw [horders,
        find?_ordId_map _ _ _ (fun x => by
          by_cases hx : x.id = oid <;> simp [hx])]
      unfold findOrderById at hordid
      rw [hordid, Option.map_some', if_pos hoid]
    have hord1' : findOrderById db1 p.orderId = some
        { o with
            balance := o.balance - a,
            status := if o.balance - a ≤ 0 ∧
                o.operationalStatus = OpStatus.DELIVERED then
              OrderStatus.COMPLETED
            else o.status } := by
      rw [hpoid]
      exact hord1
    have hnc1 : ({ o with
        balance := o.balance - a,
        status := if o.balance - a ≤ 0 ∧
            o.operationalStatus = OpStatus.DELIVERED then
          OrderStatus.COMPLETED
        else o.status } : Order).status ≠ OrderStatus.CANCELLED := by
      by_cases hc : o.balance - a ≤ 0 ∧
          o.operationalStatus = OpStatus.DELIVERED
      · show ¬(if o.balance - a ≤ 0 ∧
            o.operationalStatus = OpStatus.DELIVERED then
          OrderStatus.COMPLETED else o.status) = OrderStatus.CANCELLED
        rw [if_pos hc]
        decide
      · show ¬(if o.balance - a ≤ 0 ∧
            o.operationalStatus = OpStatus.DELIVERED then
          OrderStatus.COMPLETED else o.status) = OrderStatus.CANCELLED
        rw [if_neg hc, hact]
        decide
    have hacc1 : findAccount db1 t p.paymentMethodId = some
        { acc with balance := acc.balance + a } := by
      rw [hppm]
      unfold findAccount
      rw [haccs,
        find?_acc_map _ _ _ _ (fun x => by
          by_cases hx : x.id = acc.id <;> simp [hx])]
      unfold findAccount at hacc
      rw [hacc, Option.map_some', if_pos rfl]
    have hdel : ∃ db2, deletePayment db1 t u p.id = Except.ok db2 := by
      simp only [deletePayment, hpay1, hord1', if_neg hnc1, hacc1]
      exact ⟨_, rfl⟩
    obtain ⟨db2, hdel⟩ := hdel
    obtain ⟨p3, ord3, hp3, hord3, -, -, -, -, horders2, -, hrest2⟩ :=
      deletePayment_ok hdel
    obtain rfl : p = p3 := by
      rw [hpay1] at hp3
      exact (Option.some.injEq ..).mp hp3
    have hord3b := hord3
    rw [hord1'] at hord3b
    obtain rfl := (Option.some.injEq ..).mp hord3b
    refine ⟨db1, p, db2, rfl, hdel, ?_, ?_⟩
    · refine ⟨_, findOrderById_map_eq horders2 (fun x => by
        by_cases hx : x.id = p.orderId <;> simp [hx]) hord1, ?_⟩
      rw [if_pos (hpoid ▸ hoid : o.id = p.orderId)]
      show o.balance - a + p.amount = o.balance
      rw [hpa]
      ring
    · rcases hrest2 with ⟨acc3, hacc3, haccs2⟩ | ⟨hacc3, -⟩
      swap
      · rw [hacc1] at hacc3
        cases hacc3
      obtain rfl : ({ acc with balance := acc.balance + a } : Account) =
          acc3 := by
        rw [hacc1] at hacc3
        exact (Option.some.injEq ..).mp hacc3
      have hacc1' : db1.accounts.find? (accPred t pm) = some
          ({ acc with balance := acc.balance + a } : Account) := by
        rw [hppm] at hacc1
        exact hacc1
      refine ⟨_, findAccount_map_eq haccs2 (fun x => by
        by_cases hx : x.id =
            ({ acc with balance := acc.balance + a } : Account).id <;>
          simp [hx]) hacc1', ?_⟩
      rw [if_pos rfl]
      show acc.balance + a - p.amount = acc.balance
      rw [hpa]
      ring

/-- C4 witness: pay 40 on the order worth 100 of dbA and delete the
payment again. -/
theorem applyPayment_deletePayment_roundtrip_witness :
    findOrder dbA 1 1 = some oA ∧ findOrderById dbA 1 = some oA ∧
      oA.status = OrderStatus.ACTIVE ∧ (0 : ℚ) < 40 ∧
      (40 : ℚ) ≤ oA.balance ∧ findAccount dbA 1 3 = some accA ∧
      (∀ q ∈ dbA.payments, q.id ≠ dbA.nextId) ∧
      (∃ db1 p db2,
        applyPayment dbA 1 7 (some 1) (some 3) (some 40) none =
          Except.ok (db1, p) ∧
        deletePayment db1 1 7 p.id = Except.ok db2 ∧
        (∃ o2, findOrderById db2 1 = some o2 ∧ o2.balance = oA.balance) ∧
        (∃ acc2, findAccount db2 1 3 = some acc2 ∧
          acc2.balance = accA.balance)) :=
  ⟨by decide, by decide, by decide, by norm_num, by decide, by decide,
    by decide,
    applyPayment_deletePayment_roundtrip dbA 1 7 1 3 40 none oA accA
      (by decide) (by decide) (by decide) (by norm_num) (by decide)
      (by decide) (by decide)⟩

/-! Claim C6: order cancellation. -/

/-- C6: cancelOrder rejects any order that still has payments; an ACTIVE
order with zero payments is cancelled, its balance forced to 0, the reason
stored on the order and in a status-history entry, and no payment or
account row is touched. -/
theorem cancelOrder_spec (db : DB) (t u oid : Nat) (reason : Option String)
    (ord : Order) (hfind : findOrderById db oid = some ord) :
    ((db.payments.filter fun p => decide (p.orderId = oid)).length > 0 →
      ∃ e, cancelOrder db t u oid reason = Except.error e) ∧
    ((db.payments.filter fun p => decide (p.orderId = oid)) = [] →
      ord.status = OrderStatus.ACTIVE →
      ∃ db', cancelOrder db t u oid reason = Except.ok db' ∧
        findOrderById db' oid = some
          { ord with status := OrderStatus.CANCELLED, balance := 0,
                     cancellationReason := reason } ∧
        db'.statusHistory = db.statusHistory ++
          [{ tenantId := t, orderId := oid,
             fromStatus := some OrderStatus.ACTIVE,
             toStatus := OrderStatus.CANCELLED, reason := reason,
             changedBy := u }] ∧
        db'.payments = db.payments ∧ db'.accounts = db.accounts) := by
  have hoid : ord.id = oid := by
    have := List.find?_some hfind
    simpa [ordIdPred] using this
  constructor
  · intro hcount
    simp only [cancelOrder, hfind]
    by_cases hstat : ord.status = OrderStatus.ACTIVE
    · rw [if_neg (fun hc => hc hstat), if_pos hcount]
      exact ⟨_, rfl⟩
    · rw [if_pos hstat]
      exact ⟨_, rfl⟩
  · intro hnil hact
    simp only [cancelOrder, hfind]
    rw [if_neg (fun hc => hc hact), hnil]
    rw [if_neg (by simp)]
    refine ⟨_, rfl, ?_, rfl, rfl, rfl⟩
    unfold findOrderById
    rw [findOrderById_map_eq rfl (fun x => by
      by_cases hx : x.id = oid <;> simp [hx]) hfind, if_pos hoid]

/-- C6 witness: cancelling the paid order oB is rejected; cancelling the
unpaid order oA succeeds, zeroes the balance and stores the reason. -/
theorem cancelOrder_spec_witness :
    findOrderById dbB 2 = some oB ∧ findOrderById dbA 1 = some oA ∧
      (dbB.payments.filter fun p => decide (p.orderId = 2)).length > 0 ∧
      (∃ e, cancelOrder dbB 1 7 2 none = Except.error e) ∧
      (dbA.payments.filter fun p => decide (p.orderId = 1)) = [] ∧
      oA.status = OrderStatus.ACTIVE ∧
      (∃ db', cancelOrder dbA 1 7 1 (some "mistake") = Except.ok db' ∧
        findOrderById db' 1 = some
          { oA with status := OrderStatus.CANCELLED, balance := 0,
                    cancellationReason := some "mistake" } ∧
        db'.statusHistory = dbA.statusHistory ++
          [{ tenantId := 1, orderId := 1,
             fromStatus := some OrderStatus.ACTIVE,
             toStatus := OrderStatus.CANCELLED, reason := some "mistake",
             changedBy := 7 }] ∧
        db'.payments = dbA.payments ∧ db'.accounts = dbA.accounts) :=
  ⟨by decide, by decide, by decide,
    (cancelOrder_spec dbB 1 7 2 none oB (by decide)).1 (by decide),
    by decide, by decide,
    (cancelOrder_spec dbA 1 7 1 (some "mistake") oA (by decide)).2
      (by decide) (by decide)⟩

/-! Claim C7: the operational status machine. -/

/-- C7: setOperationalStatus fails exactly when the order is not ACTIVE or
the target is not adjacent (index distance 1) to the current operational
status; on a legal transition the operational status moves, and the
commercial status becomes COMPLETED exactly when the target is DELIVERED
and the balance is ≤ 0, with a history entry recording the transition. -/
theorem setOperationalStatus_spec (db : DB) (t u oid : Nat)
    (target : OpStatus) (ord : Order)
    (hfind : findOrderById db oid = some ord) :
    ((∃ e, setOperationalStatus db t u oid target = Except.error e) ↔
      ¬(ord.status = OrderStatus.ACTIVE ∧
        ((target.idx : ℤ) - (ord.operationalStatus.idx : ℤ)).natAbs = 1)) ∧
    (ord.status = OrderStatus.ACTIVE →
      ((target.idx : ℤ) - (ord.operationalStatus.idx : ℤ)).natAbs = 1 →
      ∃ db', setOperationalStatus db t u oid target = Except.ok db' ∧
        findOrderById db' oid = some
          { ord with operationalStatus := target,
                     status := if target = OpStatus.DELIVERED ∧
                         ord.balance ≤ 0 then
                       OrderStatus.COMPLETED
                     else ord.status } ∧
        db'.statusHistory = db.statusHistory ++
          [{ tenantId := t, orderId := oid, fromStatus := some ord.status,
             toStatus := if target = OpStatus.DELIVERED ∧ ord.balance ≤ 0
               then OrderStatus.COMPLETED
               else ord.status,
             reason := some ("Operational: "
               ++ ord.operationalStatus.name ++ " → " ++ target.name),
             changedBy := u }]) := by
  have hoid : ord.id = oid := by
    have := List.find?_some hfind
    simpa [ordIdPred] using this
  constructor
  · constructor
    · rintro ⟨e, he⟩ ⟨hact, habs⟩
      simp only [setOperationalStatus, hfind] at he
      rw [if_neg (fun hc => hc hact), if_neg (fun hc => hc habs)] at he
      exact Except.noConfusion he
    · intro hnot
      simp only [setOperationalStatus, hfind]
      by_cases hact : ord.status = OrderStatus.ACTIVE
      · have habs : ¬(((target.idx : ℤ) -
            (ord.operationalStatus.idx : ℤ)).natAbs = 1) :=
          fun h => hnot ⟨hact, h⟩
        rw [if_neg (fun hc => hc hact), if_pos habs]
        exact ⟨_, rfl⟩
      · rw [if_pos hact]
        exact ⟨_, rfl⟩
  · intro hact habs
    simp only [setOperationalStatus, hfind]
    rw [if_neg (fun hc => hc hact), if_neg (fun hc => hc habs)]
    refine ⟨_, rfl, ?_, rfl⟩
    unfold findOrderById
    rw [findOrderById_map_eq rfl (fun x => by
      by_cases hx : x.id = oid <;> simp [hx]) hfind, if_pos hoid]

/-- An ACTIVE order in production (IN_PRODUCTION), unpaid. -/
def oD : Order :=
  { id := 5, tenantId := 1, number := 4, customerId := 1, subtotal := 100,
    taxRate := 0, taxAmount := 0, discount := 0, total := 100, balance := 100,
    status := OrderStatus.ACTIVE,
    operationalStatus := OpStatus.IN_PRODUCTION, cancellationReason := none }

def dbD : DB :=
  { orders := [oD], orderItems := [], payments := [], accounts := [],
    transactions := [], statusHistory := [], nextId := 1 }

/-- C7 witness: from IN_PRODUCTION, stepping back to APPROVED succeeds;
jumping to DELIVERED (distance 2) fails. -/
theorem setOperationalStatus_spec_witness :
    findOrderById dbD 5 = some oD ∧
      oD.status = OrderStatus.ACTIVE ∧
      ((OpStatus.APPROVED.idx : ℤ) -
        (oD.operationalStatus.idx : ℤ)).natAbs = 1 ∧
      (∃ db', setOperationalStatus dbD 1 7 5 OpStatus.APPROVED =
          Except.ok db' ∧
        findOrderById db' 5 = some
          { oD with operationalStatus := OpStatus.APPROVED,
                    status := if OpStatus.APPROVED = OpStatus.DELIVERED ∧
                        oD.balance ≤ 0 then
                      OrderStatus.COMPLETED
                    else oD.status } ∧
        db'.statusHistory = dbD.statusHistory ++
          [{ tenantId := 1, orderId := 5, fromStatus := some oD.status,
             toStatus := if OpStatus.APPROVED = OpStatus.DELIVERED ∧
                 oD.balance ≤ 0
               then OrderStatus.COMPLETED
               else oD.status,
             reason := some ("Operational: "
               ++ oD.operationalStatus.name ++ " → "
               ++ OpStatus.APPROVED.name),
             changedBy := 7 }]) ∧
      (∃ e, setOperationalStatus dbD 1 7 5 OpStatus.DELIVERED =
        Except.error e) :=
  ⟨by decide, by decide, by decide,
    (setOperationalStatus_spec dbD 1 7 5 OpStatus.APPROVED oD
      (by decide)).2 (by decide) (by decide),
    (setOperationalStatus_spec dbD 1 7 5 OpStatus.DELIVERED oD
      (by decide)).1.mpr (by decide)⟩

/-! Claim C8: order creation. -/

/-- C8: createOrder fails when customerId is missing or the item list is
empty; otherwise (when the discount permission question does not arise) it
creates an order with subtotal = Σ quantity*unitPrice, taxAmount =
subtotal*taxRate, total = subtotal + taxAmount - discount, balance = total,
number = max existing tenant number + 1, and appends an initial ACTIVE
status-history entry. -/
theorem createOrder_spec (db : DB) (t u : Nat) (customerId? : Option Nat)
    (taxRate discount : ℚ) (items : List OrderItemInput)
    (canDiscount : Bool) :
    ((customerId? = none ∨ items = []) →
      ∃ e, createOrder db t u customerId? taxRate discount items
        canDiscount = Except.error e) ∧
    (∀ cid, customerId? = some cid → items ≠ [] →
      (discount = 0 ∨ canDiscount = true) →
      ∃ db' o, createOrder db t u customerId? taxRate discount items
          canDiscount = Except.ok (db', o) ∧
        o.subtotal = (items.map fun it => it.quantity * it.unitPrice).sum ∧
        o.taxAmount = o.subtotal * taxRate ∧
        o.total = o.subtotal + o.taxAmount - discount ∧
        o.balance = o.total ∧
        o.number = maxOrderNumber db t + 1 ∧
        o.status = OrderStatus.ACTIVE ∧
        db'.orders = db.orders ++ [o] ∧
        db'.statusHistory = db.statusHistory ++
          [{ tenantId := t, orderId := db.nextId, fromStatus := none,
             toStatus := OrderStatus.ACTIVE, reason := none,
             changedBy := u }]) := by
  constructor
  · rintro (rfl | rfl)
    · simp only [createOrder]
      exact ⟨_, rfl⟩
    · rcases customerId? with _ | cid
      · simp only [createOrder]
        exact ⟨_, rfl⟩
      · simp [createOrder]
  · rintro cid rfl hne hperm
    simp only [createOrder]
    rw [if_neg (fun hc => hne (List.isEmpty_iff.mp hc))]
    rcases hperm with rfl | hcd
    · rw [if_neg (fun hc => lt_irrefl 0 hc.1)]
      exact ⟨_, _, rfl, rfl, rfl, rfl, rfl, rfl, rfl, rfl, rfl⟩
    · rw [if_neg (fun hc => hc.2 hcd)]
      exact ⟨_, _, rfl, rfl, rfl, rfl, rfl, rfl, rfl, rfl, rfl⟩

/-- The item list of the C8 witness: 2 units at 30 and 1 unit at 40. -/
def itemsW : List OrderItemInput :=
  [{ productId := none, description := "plates", quantity := 2,
     unitPrice := 30 },
   { productId := some 8, description := "cups", quantity := 1,
     unitPrice := 40 }]

/-- C8 witness: creating an order for customer 1 on dbA with two line
items, no tax, no discount. -/
theorem createOrder_spec_witness :
    (¬(some 1 = none ∨ itemsW = [])) ∧ itemsW ≠ [] ∧ (0 : ℚ) = 0 ∧
      (∃ db' o, createOrder dbA 1 7 (some 1) 0 0 itemsW true =
          Except.ok (db', o) ∧
        o.subtotal = (itemsW.map fun it => it.quantity * it.unitPrice).sum ∧
        o.taxAmount = o.subtotal * 0 ∧
        o.total = o.subtotal + o.taxAmount - 0 ∧
        o.balance = o.total ∧
        o.number = maxOrderNumber dbA 1 + 1 ∧
        o.status = OrderStatus.ACTIVE ∧
        db'.orders = dbA.orders ++ [o] ∧
        db'.statusHistory = dbA.statusHistory ++
          [{ tenantId := 1, orderId := dbA.nextId, fromStatus := none,
             toStatus := OrderStatus.ACTIVE, reason := none,
             changedBy := 7 }]) :=
  ⟨by decide, by decide, rfl,
    (createOrder_spec dbA 1 7 (some 1) 0 0 itemsW true).2 1 rfl
      (by decide) (Or.inl rfl)⟩

/-! Claim C3: the account-ledger invariant. -/

/-- C3 (amended): starting from a well-formed ledger state, after every
sequence of payment create and delete requests, every Account's balance
equals the sum of CREDIT transaction amounts minus the sum of DEBIT
transaction amounts referencing it.  (A payment edit that changes the
amount adjusts the account without touching the journal and breaks the
equality — see the counterexample.) -/
theorem accountBalance_invariant (ops : List LedgerOp) (db : DB)
    (inv : LedgerInv db) :
    ∀ a ∈ (runOps db ops).accounts,
      a.balance = creditSum (runOps db ops).transactions a.id -
        debitSum (runOps db ops).transactions a.id :=
  (ledgerInv_runOps db ops inv).1

/-- A create followed by a delete of the payment it made (id 100 is the
next id issued by dbA). -/
def ops0 : List LedgerOp :=
  [LedgerOp.pay 1 7 (some 1) (some 3) (some 40) none, LedgerOp.del 1 7 100]

/-- C3 witness: the invariant holds on dbA after paying 40 on the open
order and deleting that payment again. -/
theorem accountBalance_invariant_witness :
    LedgerInv dbA ∧
      ∀ a ∈ (runOps dbA ops0).accounts,
        a.balance = creditSum (runOps dbA ops0).transactions a.id -
          debitSum (runOps dbA ops0).transactions a.id :=
  ⟨by norm_num [LedgerInv, accountBalanced, payTxnSpec, creditSum,
      debitSum, txnsFor, dbA, accA],
    accountBalance_invariant ops0 dbA
      (by norm_num [LedgerInv, accountBalanced, payTxnSpec, creditSum,
        debitSum, txnsFor, dbA, accA])⟩

/-- C3 counterexample: the ledger of dbB is balanced (account 11 holds 50,
journaled by one CREDIT of 50), but editing the payment from 50 to 100
moves the account to 100 while the journal still sums to 50, so the claim
is false for sequences containing a payment edit. -/
theorem accountBalance_claim_counterexample :
    LedgerInv dbB ∧
      editPayment dbB 1 20 none (some 100) none =
        Except.ok (dbBedit, { pB with amount := 100 }) ∧
      (∃ a, a ∈ dbBedit.accounts ∧ a.balance = 100 ∧
        creditSum dbBedit.transactions a.id -
          debitSum dbBedit.transactions a.id = 50) := by
  refine ⟨?_, ?_, ?_⟩
  · norm_num [LedgerInv, accountBalanced, payTxnSpec, creditSum, debitSum,
      txnsFor, findAccount, accPred, List.find?, List.filter_cons,
      List.filter_nil, dbB, oB, pB, accB, txnB, payTxnOf,
      (by decide : TxnType.CREDIT ≠ TxnType.DEBIT)]
  · norm_num [editPayment, findPayment, payPred, findOrderById, ordIdPred,
      findAccount, accPred, List.find?, dbB, dbBedit, pB, oB, accB, txnB,
      payTxnOf]
    simp
  · refine ⟨{ accB with balance := 100 }, by decide, by decide, ?_⟩
    norm_num [creditSum, debitSum, List.filter_cons, List.filter_nil,
      dbBedit, accB, txnB, payTxnOf,
      (by decide : TxnType.CREDIT ≠ TxnType.DEBIT)]

end Ordamy
